import Mathlib

/-
Verification of the percy router crate (src/crates/router-rs/src/router.rs).

The Router component (registry and first-match resolution) is embedded
directly from router.rs.  The Route component lives in route.rs, which is
not among the sources; its behaviour (pattern matching, typed parameter
decoding, view production) is modelled from the specification, section 3
(data model), 4.1 (Route contract) and 6 (pattern syntax).
-/

set_option autoImplicit false

namespace PercyRouter

/-- Modelled from the spec: the ParamType enumeration of the missing route.rs
declares how the captured text of a path segment must be decoded; the spec
names the variants String and U64. -/
inductive ParamType where
  | string : ParamType
  | u64 : ParamType
deriving DecidableEq

/-- Modelled from the spec: a decoded parameter value of the missing route.rs,
either the verbatim text (String) or a non-negative 64-bit integer (U64). -/
inductive DecodedValue where
  | str : String → DecodedValue
  | u64Val : Nat → DecodedValue
deriving DecidableEq

/-- Accumulator-style parse of a run of decimal digits; fails at the first
non-digit character. -/
def parseNatAux : List Char → Nat → Option Nat
  | [], acc => some acc
  | c :: cs, acc =>
    if c.isDigit then parseNatAux cs (acc * 10 + (c.toNat - 48)) else none

/-- Parse of a whole string as a decimal natural number: non-empty and all
digits, else failure. -/
def parseNat? (s : String) : Option Nat :=
  if s.data.isEmpty then none else parseNatAux s.data 0

/-- Modelled from the spec: decoding semantics of the missing route.rs.
String accepts any text verbatim; U64 requires the segment to parse as a
non-negative integer within the 64-bit range; failure yields no value. -/
def decode : ParamType → String → Option DecodedValue
  | ParamType.string, s => some (DecodedValue.str s)
  | ParamType.u64, s =>
    match parseNat? s with
    | some n => if n < 2 ^ 64 then some (DecodedValue.u64Val n) else none
    | none => none

/-- Splits a character list at every slash; the accumulator holds the current
segment reversed. -/
def splitAux : List Char → List Char → List (List Char)
  | [], acc => [acc.reverse]
  | c :: cs, acc =>
    if c = '/' then acc.reverse :: splitAux cs [] else splitAux cs (c :: acc)

/-- Drops the empty segments produced by leading and trailing separators. -/
def dropEdgeEmpty (ss : List (List Char)) : List (List Char) :=
  ((ss.dropWhile List.isEmpty).reverse.dropWhile List.isEmpty).reverse

/-- Modelled from the spec: the missing route.rs splits a path into segments
by the slash separator, ignoring leading and trailing separators. -/
def splitSegments (s : String) : List String :=
  (dropEdgeEmpty (splitAux s.data [])).map String.mk

/-- Modelled from the spec: a Route of the missing route.rs pairs a
slash-separated pattern, a mapping from placeholder name to ParamType, and a
factory building an owned view from the decoded parameters. -/
structure Route (V : Type) where
  pattern : String
  param_types : String → Option ParamType
  view_factory : List (String × DecodedValue) → V

/-- Modelled from the spec: a pattern segment beginning with a colon is a
named placeholder whose name is the remainder of the segment; any other
segment is literal. -/
def placeholderName? (seg : String) : Option String :=
  match seg.data with
  | ':' :: nameCs => some (String.mk nameCs)
  | _ => none

/-- Modelled from the spec: single-segment comparison of the missing
route.rs.  A literal pattern segment must equal the path segment exactly; a
placeholder matches any non-empty segment whose text decodes as the declared
type; a placeholder with no declared type is a caller programming error and
is treated as a failure. -/
def segMatches (pt : String → Option ParamType) (patSeg pathSeg : String) : Bool :=
  match placeholderName? patSeg with
  | some name =>
    !pathSeg.data.isEmpty &&
      (match pt name with
       | some t => (decode t pathSeg).isSome
       | none => false)
  | none => decide (patSeg = pathSeg)

/-- Modelled from the spec: Route::matches of the missing route.rs.  Segment
counts must be equal and every pattern segment must accept the corresponding
path segment; any length mismatch, literal mismatch or decode failure gives
false. -/
def Route.matches {V : Type} (r : Route V) (path : String) : Bool :=
  decide ((splitSegments r.pattern).length = (splitSegments path).length) &&
    ((splitSegments r.pattern).zip (splitSegments path)).all
      fun pq => segMatches r.param_types pq.1 pq.2

/-- Modelled from the spec: single-segment decoding step of Route::view of
the missing route.rs; a placeholder contributes its decoded binding, a
literal contributes nothing, mismatch or decode failure yields none. -/
def extractSeg (pt : String → Option ParamType) (patSeg pathSeg : String) :
    Option (List (String × DecodedValue)) :=
  match placeholderName? patSeg with
  | some name =>
    match pt name with
    | some t => (decode t pathSeg).map fun v => [(name, v)]
    | none => none
  | none => if patSeg = pathSeg then some [] else none

/-- Folds the single-segment decoding step over the aligned segment pairs,
collecting the placeholder bindings in order. -/
def extractFold (pt : String → Option ParamType) :
    List (String × String) → Option (List (String × DecodedValue))
  | [] => some []
  | pq :: rest =>
    match extractSeg pt pq.1 pq.2, extractFold pt rest with
    | some kv, some tail => some (kv ++ tail)
    | _, _ => none

/-- Modelled from the spec: the re-parse of Route::view of the missing
route.rs, building the mapping from placeholder name to decoded value; none
when the path does not structurally align or a decode fails. -/
def Route.extractParams {V : Type} (r : Route V) (path : String) :
    Option (List (String × DecodedValue)) :=
  if (splitSegments r.pattern).length = (splitSegments path).length then
    extractFold r.param_types ((splitSegments r.pattern).zip (splitSegments path))
  else none

/-- Modelled from the spec: Route::view of the missing route.rs re-parses
the path, decodes every placeholder and invokes the view factory.  Calling
it on a non-matching path is a precondition violation (undefined in the
source); that branch is rendered by the default inhabitant. -/
def Route.view {V : Type} [Inhabited V] (r : Route V) (path : String) : V :=
  match r.extractParams path with
  | some ps => r.view_factory ps
  | none => default

/-- The Router of src/crates/router-rs/src/router.rs: holds all of the
routes for an application, in registration order. -/
structure Router (V : Type) where
  routes : List (Route V)

/-- Router::default(): the derived Default builds a Router with an empty
route vector. -/
def Router.default {V : Type} : Router V := ⟨[]⟩

/-- Router::add_route: pushes the route at the end of the routes vector. -/
def Router.add_route {V : Type} (router : Router V) (r : Route V) : Router V :=
  ⟨router.routes ++ [r]⟩

/-- The loop of Router::view: scan the routes in order, return the view of
the first route that matches, none when the list is exhausted. -/
def viewScan {V : Type} [Inhabited V] : List (Route V) → String → Option V
  | [], _ => none
  | r :: rest, p => if r.matches p then some (r.view p) else viewScan rest p

/-- Router::view: get the first route that handles the incoming route and
return the view for that route, or none. -/
def Router.view {V : Type} [Inhabited V] (router : Router V) (p : String) : Option V :=
  viewScan router.routes p

/-- Stateful reading of Router::view: the receiver is taken by shared
reference in the source, so the call returns the result next to the
unchanged receiver state. -/
def Router.viewSt {V : Type} [Inhabited V] (router : Router V) (p : String) :
    Router V × Option V :=
  (router, viewScan router.routes p)

/-- Parameter typing shared by the concrete example routes: the placeholder
named id is declared U64, as in the tests of router.rs. -/
def idParams : String → Option ParamType :=
  fun name => if name = "id" then some ParamType.u64 else none

/-- Example route with pattern /users/:id whose view is the number 1. -/
def usersIdRoute : Route Nat :=
  ⟨"/users/:id", idParams, fun _ => 1⟩

/-- A second route with the same pattern /users/:id whose view is 2. -/
def usersIdRoute2 : Route Nat :=
  ⟨"/users/:id", idParams, fun _ => 2⟩

lemma viewScan_none_iff {V : Type} [Inhabited V] (rts : List (Route V)) (p : String) :
    viewScan rts p = none ↔ ∀ r ∈ rts, r.matches p = false := by
  induction rts with
  | nil => simp [viewScan]
  | cons r rest ih =>
    cases hm : r.matches p with
    | true => simp [viewScan, hm]
    | false => simp [viewScan, hm, ih]

lemma viewScan_some_iff {V : Type} [Inhabited V] (rts : List (Route V)) (p : String) (v : V) :
    viewScan rts p = some v ↔
      ∃ i, ∃ hi : i < rts.length,
        (rts.get ⟨i, hi⟩).matches p = true ∧
        (∀ r ∈ rts.take i, r.matches p = false) ∧
        v = (rts.get ⟨i, hi⟩).view p := by
  induction rts with
  | nil => simp [viewScan]
  | cons r rest ih =>
    cases hm : r.matches p with
    | true =>
      simp only [viewScan, hm, if_true]
      constructor
      · intro h
        refine ⟨0, by simp, by simpa using hm, by simp, ?_⟩
        simpa using (Option.some.inj h).symm
      · rintro ⟨i, hi, hmt, hbef, hv⟩
        cases i with
        | zero => simp_all
        | succ j =>
          exfalso
          have hr : r ∈ (r :: rest).take (j + 1) := by simp [List.take_succ_cons]
          have := hbef r hr
          simp_all
    | false =>
      simp only [viewScan, hm, Bool.false_eq_true, if_false]
      rw [ih]
      constructor
      · rintro ⟨i, hi, hmt, hbef, hv⟩
        refine ⟨i + 1, by simpa using Nat.succ_lt_succ hi, by simpa using hmt, ?_,
          by simpa using hv⟩
        intro q hq
        rw [List.take_succ_cons] at hq
        rcases List.mem_cons.mp hq with h1 | h2
        · rw [h1]; exact hm
        · exact hbef q h2
      · rintro ⟨i, hi, hmt, hbef, hv⟩
        cases i with
        | zero => simp_all
        | succ j =>
          refine ⟨j, by simpa using Nat.lt_of_succ_lt_succ hi, by simpa using hmt, ?_,
            by simpa using hv⟩
          intro q hq
          exact hbef q (by simp [List.take_succ_cons, hq])

lemma viewScan_eq_find? {V : Type} [Inhabited V] (rts : List (Route V)) (p : String) :
    viewScan rts p = (rts.find? fun q => q.matches p).map fun q => q.view p := by
  induction rts with
  | nil => simp [viewScan]
  | cons r rest ih =>
    cases hm : r.matches p with
    | true => simp [viewScan, hm, List.find?_cons_of_pos]
    | false => simp [viewScan, hm, List.find?_cons_of_neg, ih]

lemma viewScan_append_some {V : Type} [Inhabited V] (l1 l2 : List (Route V)) (p : String)
    (v : V) (h : viewScan l1 p = some v) : viewScan (l1 ++ l2) p = some v := by
  induction l1 with
  | nil => simp [viewScan] at h
  | cons r rest ih =>
    cases hm : r.matches p with
    | true => simp_all [viewScan]
    | false => simp_all [viewScan]

lemma extractSeg_isSome_of_segMatches (pt : String → Option ParamType) (a b : String)
    (h : segMatches pt a b = true) : (extractSeg pt a b).isSome = true := by
  cases hph : placeholderName? a with
  | none =>
    simp only [segMatches, hph] at h
    simp only [extractSeg, hph]
    rw [if_pos (of_decide_eq_true h)]
    rfl
  | some name =>
    simp only [segMatches, hph, Bool.and_eq_true] at h
    simp only [extractSeg, hph]
    cases hpt : pt name with
    | none => simp only [hpt] at h; simp at h
    | some t =>
      simp only [hpt] at h ⊢
      cases hd : decode t b with
      | none => simp only [hd] at h; simp at h
      | some v => simp [hd]

lemma extractFold_isSome_of_all (pt : String → Option ParamType) (l : List (String × String))
    (h : (l.all fun pq => segMatches pt pq.1 pq.2) = true) :
    (extractFold pt l).isSome = true := by
  induction l with
  | nil => rfl
  | cons pq rest ih =>
    rw [List.all_cons, Bool.and_eq_true] at h
    have h1 := extractSeg_isSome_of_segMatches pt pq.1 pq.2 h.1
    have h2 := ih h.2
    cases hx : extractSeg pt pq.1 pq.2 with
    | none => rw [hx] at h1; simp at h1
    | some kv =>
      cases hy : extractFold pt rest with
      | none => rw [hy] at h2; simp at h2
      | some tail => simp [extractFold, hx, hy]

lemma extractParams_isSome_of_matches {V : Type} (r : Route V) (p : String)
    (h : r.matches p = true) : (r.extractParams p).isSome = true := by
  simp only [Route.matches, Bool.and_eq_true] at h
  rw [Route.extractParams, if_pos (of_decide_eq_true h.1)]
  exact extractFold_isSome_of_all _ _ h.2

lemma view_eq_of_extractParams {V : Type} [Inhabited V] (r : Route V) (p : String)
    (ps : List (String × DecodedValue)) (h : r.extractParams p = some ps) :
    r.view p = r.view_factory ps := by
  simp [Route.view, h]

lemma get_mem_take {α : Type} (l : List α) (j n : Nat) (hj : j < l.length) (hjn : j < n) :
    l.get ⟨j, hj⟩ ∈ l.take n := by
  have hlen : j < (l.take n).length := by
    rw [List.length_take]
    exact Nat.lt_min.mpr ⟨hjn, hj⟩
  have heq : (l.take n).get ⟨j, hlen⟩ = l.get ⟨j, hj⟩ := by
    simp [List.get_eq_getElem]
  rw [← heq]
  exact List.get_mem _ _ _

lemma get_append_left_nat {α : Type} (l1 l2 : List α) (i : Nat) (hi : i < l1.length)
    (hi2 : i < (l1 ++ l2).length) :
    (l1 ++ l2).get ⟨i, hi2⟩ = l1.get ⟨i, hi⟩ := by
  simp [List.get_eq_getElem, List.getElem_append_left hi]

lemma first_match_index_unique {V : Type} (rts : List (Route V)) (p : String) (i j : Nat)
    (hi : i < rts.length) (hj : j < rts.length)
    (hmi : (rts.get ⟨i, hi⟩).matches p = true)
    (hbi : ∀ r ∈ rts.take i, r.matches p = false)
    (hmj : (rts.get ⟨j, hj⟩).matches p = true)
    (hbj : ∀ r ∈ rts.take j, r.matches p = false) :
    i = j := by
  by_contra hne
  rcases Nat.lt_or_ge i j with h | h
  · have := hbj _ (get_mem_take rts i j hi h)
    rw [hmi] at this
    exact absurd this (by simp)
  · have hji : j < i := Nat.lt_of_le_of_ne h fun e => hne e.symm
    have := hbi _ (get_mem_take rts j i hj hji)
    rw [hmj] at this
    exact absurd this (by simp)

/-- Claim C1: first-match resolution.  For every registered route list and
every path, Router::view returns some of the view produced by the first
route in registration order whose matches is true (no earlier route
matches), and returns none exactly when no registered route matches. -/
theorem router_view_first_match (V : Type) [Inhabited V] (router : Router V) (p : String) :
    (router.view p = none ↔ ∀ r ∈ router.routes, r.matches p = false) ∧
    ∀ v : V, router.view p = some v ↔
      ∃ i, ∃ hi : i < router.routes.length,
        (router.routes.get ⟨i, hi⟩).matches p = true ∧
        (∀ r ∈ router.routes.take i, r.matches p = false) ∧
        v = (router.routes.get ⟨i, hi⟩).view p :=
  ⟨viewScan_none_iff router.routes p, fun v => viewScan_some_iff router.routes p v⟩

/-- Instance of the first-match resolution theorem at a concrete router
holding two overlapping routes and the path /users/5. -/
theorem router_view_first_match_witness :
    (Router.mk [usersIdRoute, usersIdRoute2]).view ("/users/5") = some 1 ↔
      ∃ i, ∃ hi : i < (Router.mk [usersIdRoute, usersIdRoute2]).routes.length,
        ((Router.mk [usersIdRoute, usersIdRoute2]).routes.get ⟨i, hi⟩).matches
            ("/users/5") = true ∧
        (∀ r ∈ (Router.mk [usersIdRoute, usersIdRoute2]).routes.take i,
          r.matches ("/users/5") = false) ∧
        (1 : Nat) = ((Router.mk [usersIdRoute, usersIdRoute2]).routes.get ⟨i, hi⟩).view
            ("/users/5") :=
  (router_view_first_match Nat (Router.mk [usersIdRoute, usersIdRoute2]) ("/users/5")).2 1

/-- Claim C2: registry state characterization.  A Router is created with an
empty route list, add_route appends at the end leaving earlier routes and
their order unchanged, and registering r1, ..., rn starting from the default
Router yields exactly the list [r1, ..., rn]. -/
theorem router_registry_append_only (V : Type) :
    (Router.default : Router V).routes = [] ∧
    (∀ (router : Router V) (r : Route V),
      (router.add_route r).routes = router.routes ++ [r]) ∧
    ∀ rs : List (Route V),
      (rs.foldl Router.add_route Router.default).routes = rs := by
  have haux : ∀ (rs : List (Route V)) (router : Router V),
      (rs.foldl Router.add_route router).routes = router.routes ++ rs := by
    intro rs
    induction rs with
    | nil => intro router; simp [List.foldl]
    | cons r rest ih => intro router; simp [List.foldl, ih, Router.add_route]
  exact ⟨rfl, fun router r => rfl, fun rs => by simpa using haux rs Router.default⟩

/-- Claim C5: determinism.  The result of Router::view is a function of the
route list and the path alone: two routers with the same route list give
the same result, hence two calls with no intervening add_route agree. -/
theorem router_view_deterministic (V : Type) [Inhabited V]
    (router1 router2 : Router V) (p : String) (h : router1.routes = router2.routes) :
    router1.view p = router2.view p := by
  show viewScan router1.routes p = viewScan router2.routes p
  rw [h]

/-- Instance of the determinism theorem: the same concrete lookup performed
twice yields the same result. -/
theorem router_view_deterministic_witness :
    (Router.mk [usersIdRoute]).view ("/users/5") =
      (Router.mk [usersIdRoute]).view ("/users/5") :=
  router_view_deterministic Nat (Router.mk [usersIdRoute]) (Router.mk [usersIdRoute])
    ("/users/5") rfl

/-- Claim C6: order sensitivity.  Two routes with the same pattern
/users/:id both match /users/5, and registering them in the two orders
makes Router::view return the two different views. -/
theorem router_order_sensitive :
    usersIdRoute.matches ("/users/5") = true ∧
    usersIdRoute2.matches ("/users/5") = true ∧
    (((Router.default : Router Nat).add_route usersIdRoute).add_route usersIdRoute2).view
        ("/users/5") = some 1 ∧
    (((Router.default : Router Nat).add_route usersIdRoute2).add_route usersIdRoute).view
        ("/users/5") = some 2 ∧
    (((Router.default : Router Nat).add_route usersIdRoute).add_route usersIdRoute2).view
        ("/users/5") ≠
      (((Router.default : Router Nat).add_route usersIdRoute2).add_route usersIdRoute).view
        ("/users/5") :=
  ⟨by decide, by decide, by decide, by decide, by decide⟩

/-- Claim C9: lookup is read-only.  In the stateful reading of Router::view
the post-state route list is the pre-state route list (contents and order),
and the returned result is the pure scan; only add_route mutates. -/
theorem router_view_read_only (V : Type) [Inhabited V] (router : Router V) (p : String) :
    (router.viewSt p).1.routes = router.routes ∧ (router.viewSt p).2 = router.view p :=
  ⟨rfl, rfl⟩

/-- Claim C3: decode failure is folded into NoMatch.  A placeholder segment
whose path text fails to decode as its declared type makes matches false;
a non-matching route is skipped by the scan; when every route fails the
Router returns none; and the route /users/:id with id declared U64 rejects
/users/abc but accepts /users/5. -/
theorem decode_failure_no_match :
    (∀ (V : Type) (r : Route V) (path patSeg pathSeg name : String) (t : ParamType),
        (patSeg, pathSeg) ∈ (splitSegments r.pattern).zip (splitSegments path) →
        placeholderName? patSeg = some name →
        r.param_types name = some t →
        decode t pathSeg = none →
        r.matches path = false) ∧
    (∀ (V : Type) [Inhabited V] (r : Route V) (rest : List (Route V)) (p : String),
        r.matches p = false → viewScan (r :: rest) p = viewScan rest p) ∧
    (∀ (V : Type) [Inhabited V] (router : Router V) (p : String),
        (∀ r ∈ router.routes, r.matches p = false) → router.view p = none) ∧
    usersIdRoute.matches ("/users/abc") = false ∧
    usersIdRoute.matches ("/users/5") = true := by
  refine ⟨?_, ?_, ?_, by decide, by decide⟩
  · intro V r path patSeg pathSeg name t hmem hph hpt hd
    have hseg : segMatches r.param_types patSeg pathSeg = false := by
      simp [segMatches, hph, hpt, hd]
    cases hall : ((splitSegments r.pattern).zip (splitSegments path)).all
        (fun pq => segMatches r.param_types pq.1 pq.2) with
    | false => simp only [Route.matches, hall, Bool.and_false]
    | true =>
      exfalso
      have := List.all_eq_true.mp hall (patSeg, pathSeg) hmem
      rw [hseg] at this
      exact absurd this (by simp)
  · intro V inst r rest p h
    simp [viewScan, h]
  · intro V inst router p h
    exact (viewScan_none_iff router.routes p).mpr h

/-- Instance of the decode-failure theorem: the U64 placeholder of
/users/:id rejects the path /users/abc, and a router holding only that
route returns none for it. -/
theorem decode_failure_no_match_witness :
    usersIdRoute.matches ("/users/abc") = false ∧
    (Router.mk [usersIdRoute]).view ("/users/abc") = none :=
  ⟨decode_failure_no_match.1 Nat usersIdRoute ("/users/abc") (":id") ("abc") ("id")
      ParamType.u64 (by decide) (by decide) (by decide) (by decide),
    decode_failure_no_match.2.2.1 Nat (Router.mk [usersIdRoute]) ("/users/abc") (by decide)⟩

/-- Claim C4: segment-count strictness.  Route::matches is false whenever
the pattern and the path have different segment counts; in particular
/users/:id matches neither /users nor /users/5/name. -/
theorem segment_count_strict :
    (∀ (V : Type) (r : Route V) (path : String),
        (splitSegments r.pattern).length ≠ (splitSegments path).length →
        r.matches path = false) ∧
    usersIdRoute.matches ("/users") = false ∧
    usersIdRoute.matches ("/users/5/name") = false := by
  refine ⟨?_, by decide, by decide⟩
  intro V r path h
  simp only [Route.matches]
  rw [decide_eq_false h, Bool.false_and]

/-- Instance of the segment-count theorem: the two-segment pattern
/users/:id rejects the one-segment path /users. -/
theorem segment_count_strict_witness :
    usersIdRoute.matches ("/users") = false :=
  segment_count_strict.1 Nat usersIdRoute ("/users") (by decide)

/-- Claim C7: shadowed routes are unreachable.  If every path matched by
the route at index k is also matched by some earlier route, then any view
the Router returns comes from the first matching route, whose index is
never k. -/
theorem shadowed_route_unreachable (V : Type) [Inhabited V] (router : Router V)
    (k : Nat) (hk : k < router.routes.length)
    (hsh : ∀ p : String, (router.routes.get ⟨k, hk⟩).matches p = true →
      ∃ j, j < k ∧ ∃ hj : j < router.routes.length,
        (router.routes.get ⟨j, hj⟩).matches p = true)
    (p : String) (v : V) (hv : router.view p = some v) :
    ∃ i, ∃ hi : i < router.routes.length, i ≠ k ∧
      (router.routes.get ⟨i, hi⟩).matches p = true ∧
      (∀ r ∈ router.routes.take i, r.matches p = false) ∧
      v = (router.routes.get ⟨i, hi⟩).view p := by
  obtain ⟨i, hi, hmt, hbef, hveq⟩ := (viewScan_some_iff router.routes p v).mp hv
  refine ⟨i, hi, ?_, hmt, hbef, hveq⟩
  intro hik
  subst hik
  obtain ⟨j, hjk, hj, hjm⟩ := hsh p hmt
  have := hbef _ (get_mem_take router.routes j i hj hjk)
  rw [hjm] at this
  exact absurd this (by simp)

/-- Instance of the shadowing theorem: with two copies of the /users/:id
pattern the second is shadowed by the first, and the view returned for
/users/5 comes from an index other than 1. -/
theorem shadowed_route_unreachable_witness :
    ∃ i, ∃ hi : i < (Router.mk [usersIdRoute, usersIdRoute2]).routes.length, i ≠ 1 ∧
      ((Router.mk [usersIdRoute, usersIdRoute2]).routes.get ⟨i, hi⟩).matches
          ("/users/5") = true ∧
      (∀ r ∈ (Router.mk [usersIdRoute, usersIdRoute2]).routes.take i,
        r.matches ("/users/5") = false) ∧
      (1 : Nat) = ((Router.mk [usersIdRoute, usersIdRoute2]).routes.get ⟨i, hi⟩).view
          ("/users/5") :=
  shadowed_route_unreachable Nat (Router.mk [usersIdRoute, usersIdRoute2]) 1 (by decide)
    (fun p hp => ⟨0, by decide, by decide, hp⟩) ("/users/5") 1 (by decide)

/-- Claim C8: precondition discipline for Route::view.  The route the scan
selects is exactly the first one find? returns; its matches is true, its
parameter extraction succeeds, and the view the Router returns is the one
built by the view factory on the decoded parameters, so the
precondition-violation branch of Route::view is never taken. -/
theorem route_view_precondition_respected (V : Type) [Inhabited V]
    (rts : List (Route V)) (p : String) (r : Route V)
    (hfind : (rts.find? fun q => q.matches p) = some r) :
    r.matches p = true ∧
    ∃ ps, r.extractParams p = some ps ∧
      viewScan rts p = some (r.view_factory ps) := by
  have hm : r.matches p = true := by
    have := List.find?_some hfind
    simpa using this
  have hx := extractParams_isSome_of_matches r p hm
  cases hps : r.extractParams p with
  | none => rw [hps] at hx; simp at hx
  | some ps =>
    refine ⟨hm, ps, rfl, ?_⟩
    rw [viewScan_eq_find?, hfind]
    simp [view_eq_of_extractParams r p ps hps]

/-- Instance of the precondition theorem at the route /users/:id and the
matching path /users/5. -/
theorem route_view_precondition_respected_witness :
    usersIdRoute.matches ("/users/5") = true ∧
    ∃ ps, usersIdRoute.extractParams ("/users/5") = some ps ∧
      viewScan [usersIdRoute] ("/users/5") = some (usersIdRoute.view_factory ps) :=
  route_view_precondition_respected Nat [usersIdRoute] ("/users/5") usersIdRoute rfl

/-- Claim C10: stability of existing resolutions under registration.  If
Router::view resolves p to some v via the first matching route at index i,
then after one add_route the result is still some v and the selecting index
is still i with the same route. -/
theorem router_view_stable_under_add_route (V : Type) [Inhabited V]
    (router : Router V) (r : Route V) (p : String) (v : V)
    (hv : router.view p = some v) :
    (router.add_route r).view p = some v ∧
    ∀ i, ∀ hi : i < router.routes.length,
      ((router.routes.get ⟨i, hi⟩).matches p = true ∧
        ∀ q ∈ router.routes.take i, q.matches p = false) →
      ∃ hi2 : i < (router.add_route r).routes.length,
        ((router.add_route r).routes.get ⟨i, hi2⟩).matches p = true ∧
        (∀ q ∈ (router.add_route r).routes.take i, q.matches p = false) ∧
        v = ((router.add_route r).routes.get ⟨i, hi2⟩).view p := by
  constructor
  · exact viewScan_append_some router.routes [r] p v hv
  · intro i hi hsel
    have hi2 : i < (router.add_route r).routes.length := by
      show i < (router.routes ++ [r]).length
      rw [List.length_append]
      omega
    have hget : (router.add_route r).routes.get ⟨i, hi2⟩ = router.routes.get ⟨i, hi⟩ :=
      get_append_left_nat router.routes [r] i hi hi2
    have htake : (router.add_route r).routes.take i = router.routes.take i := by
      show (router.routes ++ [r]).take i = router.routes.take i
      exact List.take_append_of_le_length (Nat.le_of_lt hi)
    obtain ⟨j, hj, hjm, hjbef, hjv⟩ := (viewScan_some_iff router.routes p v).mp hv
    have hij : j = i :=
      first_match_index_unique router.routes p j i hj hi hjm hjbef hsel.1 hsel.2
    refine ⟨hi2, ?_, ?_, ?_⟩
    · rw [hget]; exact hsel.1
    · rw [htake]; exact hsel.2
    · rw [hget]
      subst hij
      exact hjv

/-- Instance of the stability theorem: appending a second route does not
change the resolution of /users/5 through the first one. -/
theorem router_view_stable_under_add_route_witness :
    ((Router.mk [usersIdRoute]).add_route usersIdRoute2).view ("/users/5") = some 1 ∧
    ∀ i, ∀ hi : i < (Router.mk [usersIdRoute]).routes.length,
      (((Router.mk [usersIdRoute]).routes.get ⟨i, hi⟩).matches ("/users/5") = true ∧
        ∀ q ∈ (Router.mk [usersIdRoute]).routes.take i, q.matches ("/users/5") = false) →
      ∃ hi2 : i < ((Router.mk [usersIdRoute]).add_route usersIdRoute2).routes.length,
        (((Router.mk [usersIdRoute]).add_route usersIdRoute2).routes.get ⟨i, hi2⟩).matches
            ("/users/5") = true ∧
        (∀ q ∈ ((Router.mk [usersIdRoute]).add_route usersIdRoute2).routes.take i,
          q.matches ("/users/5") = false) ∧
        (1 : Nat) = (((Router.mk [usersIdRoute]).add_route usersIdRoute2).routes.get
            ⟨i, hi2⟩).view ("/users/5") :=
  router_view_stable_under_add_route Nat (Router.mk [usersIdRoute]) usersIdRoute2
    ("/users/5") 1 (by decide)

end PercyRouter
